import Mathlib

/-
Verification of the ChirpStack network-server core: the device-session store
and codec (src/unnamed/part_002, package storage), the downlink device-queue
scheduler (package storage; its implementation is exercised by the tests in
src/unnamed/part_000), and the application-server client pool
(src/internal/api/client/asclient/pool.go).

Conventions of the shallow embedding:
- Go machine integers are modelled as Nat / Int with explicit `% 2^w`
  narrowing exactly where the Go code converts between widths.
- Go `time.Time` values are modelled by their `UnixNano` reading as an `Int`
  (the zero time is modelled as 0); wall-clock instants that only get
  compared are modelled as `Nat`.
- Go byte slices are `List Nat`; fixed-size Go arrays ([4]byte, [8]byte,
  [16]byte) are length-indexed lists (`GoBytes n`).
- Go float64 `ReferenceAltitude` and `MaxSNR` are modelled as `Rat` at exact
  precision; the wire narrowing float64 -> float32 of `MaxSNR` is outside
  this model (floating point) and is noted where relevant.
- Fallible Go calls return `Except` or an explicit Go-style `(value, error)`
  pair where the pairing itself matters (pool.go).
- External library calls (gRPC dial, TLS parsing, LoRaWAN MIC validation)
  are modelled as explicit oracle inputs; the spec places them out of scope.
-/

namespace ChirpStack

/-- Storage-layer error values observable at the API surface. -/
inductive StorageError where
  | doesNotExist
  | doesNotExistOrFCntOrMICInvalid
deriving DecidableEq, Repr

/-! ## Downlink device-queue model

The device-queue implementation is not under src/ (only its tests,
src/unnamed/part_000, are), so the operations below are modelled from the
spec, sections 4.C, 4.C.1 and 4.C.2, and validated against the expectations
of the src tests. -/

/-- One pending downlink for a device (`DeviceQueueItem`). `frmPayload` is
the payload byte slice; `timeoutAfter` and the wall clock are instants
measured as naturals. -/
structure DeviceQueueItem where
  id : Nat
  devEUI : Nat
  fCnt : Nat
  fPort : Nat
  frmPayload : List Nat
  confirmed : Bool := false
  isPending : Bool := false
  timeoutAfter : Option Nat := none
  emitAtTimeSinceGPSEpoch : Option Nat := none
deriving DecidableEq, Repr

/-- Queue-item comparison by frame counter, the SQL `order by f_cnt`. -/
def fcntLE (a b : DeviceQueueItem) : Prop := a.fCnt ≤ b.fCnt

instance : DecidableRel fcntLE := fun a b => inferInstanceAs (Decidable (a.fCnt ≤ b.fCnt))

instance : IsTotal DeviceQueueItem fcntLE := ⟨fun a b => Nat.le_total a.fCnt b.fCnt⟩

instance : IsTrans DeviceQueueItem fcntLE := ⟨fun _ _ _ h1 h2 => Nat.le_trans h1 h2⟩

/-- The device's queue rows in ascending frame-counter order. -/
def sortByFCnt (l : List DeviceQueueItem) : List DeviceQueueItem :=
  List.insertionSort fcntLE l

/-- True when `TimeoutAfter` is set and lies strictly in the future
(Go: `TimeoutAfter != nil && TimeoutAfter.After(now)`). -/
def timeoutAfterInFuture (now : Nat) : Option Nat → Bool
  | none => false
  | some t => now < t

/-- True when `TimeoutAfter` is set and has passed (spec 4.C.1:
`h.TimeoutAfter ≤ now`). -/
def timeoutAfterExpired (now : Nat) : Option Nat → Bool
  | none => false
  | some t => t ≤ now

/-- Modelled from the spec: the implementation of
`GetNextDeviceQueueItemForDevEUI` is not under src/ (only its tests are).
Spec 4.C: return the first item in ascending `FCnt` order unless the head is
pending and `TimeoutAfter` is in the future, in which case fail with
not-found. The device's rows are the input list; the clock is `now`. -/
def GetNextDeviceQueueItemForDevEUI (now : Nat) (queue : List DeviceQueueItem) :
    Except StorageError DeviceQueueItem :=
  match sortByFCnt queue with
  | [] => .error .doesNotExist
  | h :: _ =>
    if h.isPending && timeoutAfterInFuture now h.timeoutAfter then .error .doesNotExist
    else .ok h

/-- Application-server error types used by the queue scheduler
(`as.ErrorType` values seen in the src tests). -/
inductive ASErrorType where
  | deviceQueueItemSize
  | deviceQueueItemFCnt
deriving DecidableEq, Repr

/-- A notification delivered to the application server during one scheduling
call, in emission order. -/
inductive ASNotification where
  | handleDownlinkACK (devEUI : Nat) (fCnt : Nat) (acknowledged : Bool)
  | handleError (devEUI : Nat) (errType : ASErrorType) (msg : String) (fCnt : Nat)
deriving DecidableEq, Repr

/-- Whether a notification is a `HandleDownlinkACK`. -/
def ASNotification.isAck : ASNotification → Bool
  | .handleDownlinkACK .. => true
  | .handleError .. => false

/-- Whether a notification is a `HandleError`. -/
def ASNotification.isErr : ASNotification → Bool
  | .handleDownlinkACK .. => false
  | .handleError .. => true

/-- Modelled from the spec (4.C.1): the discard loop of the scheduling
primitive over the items in ascending `FCnt` order. Cases in the spec's
order: timed-out pending head (delete, emit a NACK, continue); pending head
with future timeout (not-found); stale frame counter (delete, emit a FCNT
error, continue); payload too large (delete, emit a SIZE error, continue);
otherwise return the head. Deletions are implicit in recursing on the tail;
the emitted notifications are returned in order. -/
def scheduleLoop (now devEUI maxPayloadSize fCnt : Nat) :
    List DeviceQueueItem → List ASNotification × Except StorageError DeviceQueueItem
  | [] => ([], .error .doesNotExist)
  | h :: rest =>
    if h.isPending && timeoutAfterExpired now h.timeoutAfter then
      (.handleDownlinkACK devEUI h.fCnt false ::
        (scheduleLoop now devEUI maxPayloadSize fCnt rest).1,
       (scheduleLoop now devEUI maxPayloadSize fCnt rest).2)
    else if h.isPending && timeoutAfterInFuture now h.timeoutAfter then
      ([], .error .doesNotExist)
    else if h.fCnt < fCnt then
      (.handleError devEUI .deviceQueueItemFCnt "invalid frame-counter" h.fCnt ::
        (scheduleLoop now devEUI maxPayloadSize fCnt rest).1,
       (scheduleLoop now devEUI maxPayloadSize fCnt rest).2)
    else if maxPayloadSize < h.frmPayload.length then
      (.handleError devEUI .deviceQueueItemSize "payload exceeds max payload size" h.fCnt ::
        (scheduleLoop now devEUI maxPayloadSize fCnt rest).1,
       (scheduleLoop now devEUI maxPayloadSize fCnt rest).2)
    else ([], .ok h)

/-- Modelled from the spec (4.C.1): the scheduling primitive
`GetNextDeviceQueueItemForDevEUIMaxPayloadSizeAndFCnt`. Loads the device's
items in ascending `FCnt` order and runs the discard loop; returns the
application-server notifications it produced together with the result. -/
def GetNextDeviceQueueItemForDevEUIMaxPayloadSizeAndFCnt
    (now devEUI maxPayloadSize fCnt : Nat) (queue : List DeviceQueueItem) :
    List ASNotification × Except StorageError DeviceQueueItem :=
  scheduleLoop now devEUI maxPayloadSize fCnt (sortByFCnt queue)

/-! Validation of the spec-modelled scheduler against the test table of
src/unnamed/part_000 (lines 183-325). The five queue items and the clock
mirror the test fixture: item 100 is pending with a timeout one minute in
the past. -/

def tItem0 : DeviceQueueItem :=
  { id := 0, devEUI := 1, fCnt := 100, fPort := 1, frmPayload := [1, 2, 3, 4, 5, 6, 7],
    isPending := true, timeoutAfter := some 940 }

def tItem1 : DeviceQueueItem :=
  { id := 1, devEUI := 1, fCnt := 101, fPort := 1, frmPayload := [1, 2, 3, 4, 5, 6, 7] }

def tItem2 : DeviceQueueItem :=
  { id := 2, devEUI := 1, fCnt := 102, fPort := 2, frmPayload := [1, 2, 3, 4, 5, 6] }

def tItem3 : DeviceQueueItem :=
  { id := 3, devEUI := 1, fCnt := 103, fPort := 3, frmPayload := [1, 2, 3, 4, 5] }

def tItem4 : DeviceQueueItem :=
  { id := 4, devEUI := 1, fCnt := 104, fPort := 4, frmPayload := [1, 2, 3, 4] }

def tQueue : List DeviceQueueItem := [tItem0, tItem1, tItem2, tItem3, tItem4]

example :
    GetNextDeviceQueueItemForDevEUIMaxPayloadSizeAndFCnt 1000 1 7 100 tQueue =
      ([.handleDownlinkACK 1 100 false], .ok tItem1) := by rfl

example :
    GetNextDeviceQueueItemForDevEUIMaxPayloadSizeAndFCnt 1000 1 6 100 tQueue =
      ([.handleDownlinkACK 1 100 false,
        .handleError 1 .deviceQueueItemSize "payload exceeds max payload size" 101],
       .ok tItem2) := by rfl

example :
    GetNextDeviceQueueItemForDevEUIMaxPayloadSizeAndFCnt 1000 1 5 100 tQueue =
      ([.handleDownlinkACK 1 100 false,
        .handleError 1 .deviceQueueItemSize "payload exceeds max payload size" 101,
        .handleError 1 .deviceQueueItemSize "payload exceeds max payload size" 102],
       .ok tItem3) := by rfl

example :
    GetNextDeviceQueueItemForDevEUIMaxPayloadSizeAndFCnt 1000 1 3 101 tQueue =
      ([.handleDownlinkACK 1 100 false,
        .handleError 1 .deviceQueueItemSize "payload exceeds max payload size" 101,
        .handleError 1 .deviceQueueItemSize "payload exceeds max payload size" 102,
        .handleError 1 .deviceQueueItemSize "payload exceeds max payload size" 103,
        .handleError 1 .deviceQueueItemSize "payload exceeds max payload size" 104],
       .error .doesNotExist) := by rfl

example :
    GetNextDeviceQueueItemForDevEUIMaxPayloadSizeAndFCnt 1000 1 7 102 tQueue =
      ([.handleDownlinkACK 1 100 false,
        .handleError 1 .deviceQueueItemFCnt "invalid frame-counter" 101],
       .ok tItem2) := by rfl

example :
    GetNextDeviceQueueItemForDevEUI 1000 [tItem1, tItem2] = .ok tItem1 := by rfl

example :
    GetNextDeviceQueueItemForDevEUI 1000
      [{ tItem1 with isPending := true, timeoutAfter := some 2000 }, tItem2] =
      .error .doesNotExist := by rfl

/-! ## Class-B/C dispatcher model -/

/-- Modelled from the spec (4.C.2): `GetDevicesWithClassBOrClassCDeviceQueueItems`.
The SQL implementation is not under src/ (only its tests are). The complex
eligibility predicate (device mode B or C, schedulable head item within the
scheduler tick) is abstracted as the input list `eligible`, in the order the
query returns rows; the `FOR UPDATE SKIP LOCKED` row reservation is modelled
by the explicit list `locked` of device ids already reserved by other
uncommitted transactions. Returns the selected devices (at most `limit`,
skipping locked rows) together with the new lock state. -/
def GetDevicesWithClassBOrClassCDeviceQueueItems
    (eligible locked : List Nat) (limit : Nat) : List Nat × List Nat :=
  let sel := (eligible.filter (fun d => !(locked.contains d))).take limit
  (sel, locked ++ sel)

/-- Rollback of a dispatcher transaction releases the rows it reserved. -/
def releaseLocks (locked sel : List Nat) : List Nat :=
  locked.filter (fun d => !(sel.contains d))

/-! ## Application-server client pool (src/internal/api/client/asclient/pool.go) -/

/-- Go `error` values: `none` is Go `nil`. -/
abbrev GoError := Option String

/-- pkg/errors `errors.Wrap`: wrapping a nil error yields nil. -/
def errorsWrap (e : GoError) (msg : String) : GoError :=
  match e with
  | none => none
  | some s => some (msg ++ ": " ++ s)

/-- Outcomes of the external library calls `createClient` makes (TLS keypair
parsing, CA-pool construction, the 500 ms bounded gRPC dial); the client a
successful dial produces is an opaque value. -/
structure CreateClientEnv where
  x509KeyPairError : GoError
  appendCertsOK : Bool
  dialError : GoError
  dialedClient : Nat
deriving DecidableEq, Repr

/-- The `createClient` method of the pool (pool.go lines 61-96): with all
three TLS parameters empty it dials insecurely; otherwise it parses the
keypair, builds the CA pool, and dials with transport credentials. Returns
the Go-style pair (client, error); note that in the CA-rejection branch the
source wraps the keypair error variable, which is nil there. -/
def createClient (env : CreateClientEnv) (caCert tlsCert tlsKey : List Nat) :
    Option Nat × GoError :=
  if tlsCert = [] ∧ tlsKey = [] ∧ caCert = [] then
    match env.dialError with
    | some e => (none, errorsWrap (some e) "dial application-server api error")
    | none => (some env.dialedClient, none)
  else
    match env.x509KeyPairError with
    | some e => (none, errorsWrap (some e) "load x509 keypair error")
    | none =>
      if !env.appendCertsOK then
        (none, errorsWrap none "append ca cert to pool error")
      else
        match env.dialError with
        | some e => (none, errorsWrap (some e) "dial application-server api error")
        | none => (some env.dialedClient, none)

/-- The `Get` method of the pool (pool.go lines 41-59). The cache maps
hostnames to the stored client field (which is the Go interface value and
may itself be nil); a miss constructs a client and caches it whenever the
returned error is nil. Returns the Go-style result pair and the new cache. -/
def poolGet (env : CreateClientEnv) (clients : List (String × Option Nat))
    (hostname : String) (caCert tlsCert tlsKey : List Nat) :
    (Option Nat × GoError) × List (String × Option Nat) :=
  match clients.lookup hostname with
  | some c => ((c, none), clients)
  | none =>
    let r := createClient env caCert tlsCert tlsKey
    match r.2 with
    | some e =>
      ((none, some ("create application-server api client error: " ++ e)), clients)
    | none => ((r.1, none), clients ++ [(hostname, r.1)])

/-! ## Device-session data model (src/unnamed/part_002) -/

/-- A fixed-length Go byte array (`[n]byte`), e.g. `lorawan.EUI64`,
`lorawan.DevAddr`, `lorawan.AES128Key`. -/
def GoBytes (n : Nat) := {l : List Nat // l.length = n}

instance (n : Nat) : DecidableEq (GoBytes n) :=
  inferInstanceAs (DecidableEq {l : List Nat // l.length = n})

instance (n : Nat) : Repr (GoBytes n) := ⟨fun b p => reprPrec b.val p⟩

/-- Go `copy(dst[:], src)` into a zero-initialised `n`-byte array: the first
`min n (length src)` bytes come from `src`, the rest stay zero. -/
def copyFixed (n : Nat) (l : List Nat) : GoBytes n :=
  ⟨l.take n ++ List.replicate (n - l.length) 0, by
    simp [List.length_take]
    omega⟩

/-- The zero value of an `n`-byte Go array. -/
def zeroBytes (n : Nat) : GoBytes n := ⟨List.replicate n 0, by simp⟩

/-- Go `uint32(x)` applied to a value of Go type `int` (64-bit):
two's-complement truncation, i.e. reduction mod 2^32. -/
def u32ofInt (x : Int) : Nat := (x % 4294967296).toNat

/-- `UplinkHistorySize` contains the number of frames to store. -/
def UplinkHistorySize : Nat := 20

/-- An uplink channel (`loraband.Channel`); only the fields the codec
serialises are modelled. -/
structure Channel where
  Frequency : Int
  MinDR : Int
  MaxDR : Int
deriving DecidableEq, Repr

/-- `UplinkHistory` contains the meta-data of an uplink transmission.
`MaxSNR` is a Go float64, modelled at exact precision. -/
structure UplinkHistory where
  FCnt : Nat
  MaxSNR : Rat
  TXPowerIndex : Int
  GatewayCount : Int
deriving DecidableEq, Repr

/-- `KeyEnvelope` defines a key-envelope. -/
structure KeyEnvelope where
  KEKLabel : String
  AESKey : List Nat
deriving DecidableEq, Repr

/-- The non-recursive fields of `DeviceSession`, in source order. UUIDs are
modelled by their 128-bit value (`uuid.String` / `uuid.FromString` compose to
the identity on valid UUIDs). `RXWindow` (Go int8) and the deprecated
`EnabledChannels` are present in the struct but never serialised by the
protobuf codec. The Go map `ExtraUplinkChannels` is modelled as an
association list. Timestamps are modelled by their `UnixNano` reading. -/
structure DeviceSessionData where
  MACVersion : String
  DeviceProfileID : Nat
  ServiceProfileID : Nat
  RoutingProfileID : Nat
  DevAddr : GoBytes 4
  DevEUI : GoBytes 8
  JoinEUI : GoBytes 8
  FNwkSIntKey : GoBytes 16
  SNwkSIntKey : GoBytes 16
  NwkSEncKey : GoBytes 16
  AppSKeyEvelope : Option KeyEnvelope
  FCntUp : Nat
  NFCntDown : Nat
  AFCntDown : Nat
  ConfFCnt : Nat
  SkipFCntValidation : Bool
  RXWindow : Int
  RXDelay : Nat
  RX1DROffset : Nat
  RX2DR : Nat
  RX2Frequency : Int
  TXPowerIndex : Int
  DR : Int
  ADR : Bool
  MinSupportedTXPowerIndex : Int
  MaxSupportedTXPowerIndex : Int
  NbTrans : Nat
  EnabledChannels : List Int
  EnabledUplinkChannels : List Int
  ExtraUplinkChannels : List (Int × Channel)
  ChannelFrequencies : List Int
  UplinkHistory : List UplinkHistory
  LastDevStatusRequested : Int
  LastDownlinkTX : Int
  BeaconLocked : Bool
  PingSlotNb : Int
  PingSlotDR : Int
  PingSlotFrequency : Int
  RejoinRequestEnabled : Bool
  RejoinRequestMaxCountN : Int
  RejoinRequestMaxTimeN : Int
  RejoinCount0 : Nat
  ReferenceAltitude : Rat
  UplinkDwellTime400ms : Bool
  DownlinkDwellTime400ms : Bool
  UplinkMaxEIRPIndex : Nat
deriving DecidableEq, Repr

/-- `DeviceSession` defines a device-session: its plain fields plus the
optional embedded `PendingRejoinDeviceSession` (a full session snapshot). -/
inductive DeviceSession where
  | mk (data : DeviceSessionData) (PendingRejoinDeviceSession : Option DeviceSession)
deriving Repr

/-- Equality of device-sessions is decidable (needed to evaluate the
round-trip on concrete sessions). -/
def DeviceSession.decEq : (s t : DeviceSession) → Decidable (s = t)
  | .mk d1 p1, .mk d2 p2 =>
    match inferInstanceAs (DecidableEq DeviceSessionData) d1 d2 with
    | isFalse h => isFalse (by intro he; injection he; contradiction)
    | isTrue h1 =>
      match p1, p2 with
      | none, none => isTrue (by rw [h1])
      | some a, some b =>
        match DeviceSession.decEq a b with
        | isTrue h2 => isTrue (by rw [h1, h2])
        | isFalse h2 => isFalse (by
            intro he; injection he with hd hp; injection hp; contradiction)
      | none, some _ => isFalse (by
          intro he; injection he with hd hp; exact Option.noConfusion hp)
      | some _, none => isFalse (by
          intro he; injection he with hd hp; exact Option.noConfusion hp)

instance : DecidableEq DeviceSession := DeviceSession.decEq

/-- The non-recursive fields of a session. -/
def DeviceSession.data : DeviceSession → DeviceSessionData
  | .mk d _ => d

/-- The embedded pending rejoin session, if any. -/
def DeviceSession.pending : DeviceSession → Option DeviceSession
  | .mk _ p => p

/-- A serialised channel (`DeviceSessionPBChannel`): uint32 fields. -/
structure DeviceSessionPBChannel where
  Frequency : Nat
  MinDr : Nat
  MaxDr : Nat
deriving DecidableEq, Repr

/-- A serialised uplink-history record (`DeviceSessionPBUplinkADRHistory`).
On the wire `MaxSnr` is a float32; the float64 -> float32 narrowing is not
modelled (floating point), so the field is carried at exact precision. -/
structure DeviceSessionPBUplinkADRHistory where
  FCnt : Nat
  MaxSnr : Rat
  TxPowerIndex : Nat
  GatewayCount : Nat
deriving DecidableEq, Repr

/-- The non-recursive fields of the protobuf message `DeviceSessionPB`. -/
structure DeviceSessionPBData where
  MacVersion : String
  DeviceProfileId : Nat
  ServiceProfileId : Nat
  RoutingProfileId : Nat
  DevAddr : List Nat
  DevEui : List Nat
  JoinEui : List Nat
  FNwkSIntKey : List Nat
  SNwkSIntKey : List Nat
  NwkSEncKey : List Nat
  AppSKeyEnvelope : Option KeyEnvelope
  FCntUp : Nat
  NFCntDown : Nat
  AFCntDown : Nat
  ConfFCnt : Nat
  SkipFCntCheck : Bool
  RxDelay : Nat
  Rx1DrOffset : Nat
  Rx2Dr : Nat
  Rx2Frequency : Nat
  TxPowerIndex : Nat
  Dr : Nat
  Adr : Bool
  MinSupportedTxPowerIndex : Nat
  MaxSupportedTxPowerIndex : Nat
  NbTrans : Nat
  EnabledUplinkChannels : List Nat
  ExtraUplinkChannels : List (Nat × DeviceSessionPBChannel)
  ChannelFrequencies : List Nat
  UplinkAdrHistory : List DeviceSessionPBUplinkADRHistory
  LastDeviceStatusRequestTimeUnixNs : Int
  LastDownlinkTxTimestampUnixNs : Int
  BeaconLocked : Bool
  PingSlotNb : Nat
  PingSlotDr : Nat
  PingSlotFrequency : Nat
  RejoinRequestEnabled : Bool
  RejoinRequestMaxCountN : Nat
  RejoinRequestMaxTimeN : Nat
  RejoinCount_0 : Nat
  ReferenceAltitude : Rat
  UplinkDwellTime_400Ms : Bool
  DownlinkDwellTime_400Ms : Bool
  UplinkMaxEirpIndex : Nat
deriving DecidableEq, Repr

/-- The protobuf message `DeviceSessionPB`: its plain fields plus the
recursively embedded pending rejoin session. In the source the embedded
session is carried as opaque marshalled bytes; protobuf marshalling of the
nested message is a library call and is modelled as the message itself. -/
inductive DeviceSessionPB where
  | mk (data : DeviceSessionPBData) (PendingRejoinDeviceSession : Option DeviceSessionPB)
deriving Repr

/-- Equality of serialised sessions is decidable. -/
def DeviceSessionPB.decEq : (s t : DeviceSessionPB) → Decidable (s = t)
  | .mk d1 p1, .mk d2 p2 =>
    match inferInstanceAs (DecidableEq DeviceSessionPBData) d1 d2 with
    | isFalse h => isFalse (by intro he; injection he; contradiction)
    | isTrue h1 =>
      match p1, p2 with
      | none, none => isTrue (by rw [h1])
      | some a, some b =>
        match DeviceSessionPB.decEq a b with
        | isTrue h2 => isTrue (by rw [h1, h2])
        | isFalse h2 => isFalse (by
            intro he; injection he with hd hp; injection hp; contradiction)
      | none, some _ => isFalse (by
          intro he; injection he with hd hp; exact Option.noConfusion hp)
      | some _, none => isFalse (by
          intro he; injection he with hd hp; exact Option.noConfusion hp)

instance : DecidableEq DeviceSessionPB := DeviceSessionPB.decEq

/-- The field mapping of `deviceSessionToPB` (part_002 lines 620-718)
restricted to the non-recursive fields, in source order. Go `uint32(...)`
conversions of int-typed fields become `u32ofInt`; uint8/uint16 fields widen
losslessly; `RXWindow` and `EnabledChannels` have no protobuf counterpart. -/
def deviceSessionDataToPB (d : DeviceSessionData) : DeviceSessionPBData where
  MacVersion := d.MACVersion
  DeviceProfileId := d.DeviceProfileID
  ServiceProfileId := d.ServiceProfileID
  RoutingProfileId := d.RoutingProfileID
  DevAddr := d.DevAddr.val
  DevEui := d.DevEUI.val
  JoinEui := d.JoinEUI.val
  FNwkSIntKey := d.FNwkSIntKey.val
  SNwkSIntKey := d.SNwkSIntKey.val
  NwkSEncKey := d.NwkSEncKey.val
  AppSKeyEnvelope := d.AppSKeyEvelope.map (fun k => ⟨k.KEKLabel, k.AESKey⟩)
  FCntUp := d.FCntUp
  NFCntDown := d.NFCntDown
  AFCntDown := d.AFCntDown
  ConfFCnt := d.ConfFCnt
  SkipFCntCheck := d.SkipFCntValidation
  RxDelay := d.RXDelay
  Rx1DrOffset := d.RX1DROffset
  Rx2Dr := d.RX2DR
  Rx2Frequency := u32ofInt d.RX2Frequency
  TxPowerIndex := u32ofInt d.TXPowerIndex
  Dr := u32ofInt d.DR
  Adr := d.ADR
  MinSupportedTxPowerIndex := u32ofInt d.MinSupportedTXPowerIndex
  MaxSupportedTxPowerIndex := u32ofInt d.MaxSupportedTXPowerIndex
  NbTrans := d.NbTrans
  EnabledUplinkChannels := d.EnabledUplinkChannels.map u32ofInt
  ExtraUplinkChannels := d.ExtraUplinkChannels.map
    (fun kc => (u32ofInt kc.1,
      ⟨u32ofInt kc.2.Frequency, u32ofInt kc.2.MinDR, u32ofInt kc.2.MaxDR⟩))
  ChannelFrequencies := d.ChannelFrequencies.map u32ofInt
  UplinkAdrHistory := d.UplinkHistory.map
    (fun h => ⟨h.FCnt, h.MaxSNR, u32ofInt h.TXPowerIndex, u32ofInt h.GatewayCount⟩)
  LastDeviceStatusRequestTimeUnixNs := d.LastDevStatusRequested
  LastDownlinkTxTimestampUnixNs := d.LastDownlinkTX
  BeaconLocked := d.BeaconLocked
  PingSlotNb := u32ofInt d.PingSlotNb
  PingSlotDr := u32ofInt d.PingSlotDR
  PingSlotFrequency := u32ofInt d.PingSlotFrequency
  RejoinRequestEnabled := d.RejoinRequestEnabled
  RejoinRequestMaxCountN := u32ofInt d.RejoinRequestMaxCountN
  RejoinRequestMaxTimeN := u32ofInt d.RejoinRequestMaxTimeN
  RejoinCount_0 := d.RejoinCount0
  ReferenceAltitude := d.ReferenceAltitude
  UplinkDwellTime_400Ms := d.UplinkDwellTime400ms
  DownlinkDwellTime_400Ms := d.DownlinkDwellTime400ms
  UplinkMaxEirpIndex := d.UplinkMaxEIRPIndex

/-- The field mapping of `deviceSessionFromPB` (part_002 lines 720-827)
restricted to the non-recursive fields. Byte slices are copied into
fixed-size arrays; Go `uint8(...)` / `uint16(...)` of uint32 values truncate
mod 2^8 / 2^16; `int(...)` of a uint32 is exact; timestamps are restored
only when strictly positive; `RXWindow` and `EnabledChannels` keep their
zero values. -/
def deviceSessionDataFromPB (d : DeviceSessionPBData) : DeviceSessionData where
  MACVersion := d.MacVersion
  DeviceProfileID := d.DeviceProfileId
  ServiceProfileID := d.ServiceProfileId
  RoutingProfileID := d.RoutingProfileId
  DevAddr := copyFixed 4 d.DevAddr
  DevEUI := copyFixed 8 d.DevEui
  JoinEUI := copyFixed 8 d.JoinEui
  FNwkSIntKey := copyFixed 16 d.FNwkSIntKey
  SNwkSIntKey := copyFixed 16 d.SNwkSIntKey
  NwkSEncKey := copyFixed 16 d.NwkSEncKey
  AppSKeyEvelope := d.AppSKeyEnvelope.map (fun k => ⟨k.KEKLabel, k.AESKey⟩)
  FCntUp := d.FCntUp
  NFCntDown := d.NFCntDown
  AFCntDown := d.AFCntDown
  ConfFCnt := d.ConfFCnt
  SkipFCntValidation := d.SkipFCntCheck
  RXWindow := 0
  RXDelay := d.RxDelay % 256
  RX1DROffset := d.Rx1DrOffset % 256
  RX2DR := d.Rx2Dr % 256
  RX2Frequency := (d.Rx2Frequency : Int)
  TXPowerIndex := (d.TxPowerIndex : Int)
  DR := (d.Dr : Int)
  ADR := d.Adr
  MinSupportedTXPowerIndex := (d.MinSupportedTxPowerIndex : Int)
  MaxSupportedTXPowerIndex := (d.MaxSupportedTxPowerIndex : Int)
  NbTrans := d.NbTrans % 256
  EnabledChannels := []
  EnabledUplinkChannels := d.EnabledUplinkChannels.map (fun (c : Nat) => (c : Int))
  ExtraUplinkChannels := d.ExtraUplinkChannels.map
    (fun (kc : Nat × DeviceSessionPBChannel) => ((kc.1 : Int),
      ⟨(kc.2.Frequency : Int), (kc.2.MinDr : Int), (kc.2.MaxDr : Int)⟩))
  ChannelFrequencies := d.ChannelFrequencies.map (fun (c : Nat) => (c : Int))
  UplinkHistory := d.UplinkAdrHistory.map
    (fun (uh : DeviceSessionPBUplinkADRHistory) =>
      ⟨uh.FCnt, uh.MaxSnr, (uh.TxPowerIndex : Int), (uh.GatewayCount : Int)⟩)
  LastDevStatusRequested :=
    if 0 < d.LastDeviceStatusRequestTimeUnixNs then d.LastDeviceStatusRequestTimeUnixNs else 0
  LastDownlinkTX :=
    if 0 < d.LastDownlinkTxTimestampUnixNs then d.LastDownlinkTxTimestampUnixNs else 0
  BeaconLocked := d.BeaconLocked
  PingSlotNb := (d.PingSlotNb : Int)
  PingSlotDR := (d.PingSlotDr : Int)
  PingSlotFrequency := (d.PingSlotFrequency : Int)
  RejoinRequestEnabled := d.RejoinRequestEnabled
  RejoinRequestMaxCountN := (d.RejoinRequestMaxCountN : Int)
  RejoinRequestMaxTimeN := (d.RejoinRequestMaxTimeN : Int)
  RejoinCount0 := d.RejoinCount_0 % 65536
  ReferenceAltitude := d.ReferenceAltitude
  UplinkDwellTime400ms := d.UplinkDwellTime_400Ms
  DownlinkDwellTime400ms := d.DownlinkDwellTime_400Ms
  UplinkMaxEIRPIndex := d.UplinkMaxEirpIndex % 256

/-- `deviceSessionToPB`: the full encoder, recursing on the embedded pending
rejoin session. -/
def deviceSessionToPB : DeviceSession → DeviceSessionPB
  | .mk d none => .mk (deviceSessionDataToPB d) none
  | .mk d (some p) => .mk (deviceSessionDataToPB d) (some (deviceSessionToPB p))

/-- `deviceSessionFromPB`: the full decoder, recursing on the embedded
pending rejoin session. -/
def deviceSessionFromPB : DeviceSessionPB → DeviceSession
  | .mk d none => .mk (deviceSessionDataFromPB d) none
  | .mk d (some p) => .mk (deviceSessionDataFromPB d) (some (deviceSessionFromPB p))

/-! ## Range conditions under which the codec is lossless -/

/-- A Go int value that survives the `uint32` narrowing the codec applies. -/
def IntInU32 (x : Int) : Prop := 0 ≤ x ∧ x < 4294967296

instance : DecidablePred IntInU32 :=
  fun x => inferInstanceAs (Decidable (0 ≤ x ∧ x < 4294967296))

/-- All serialised fields of an extra uplink channel are in uint32 range. -/
def ChannelInRange (c : Channel) : Prop :=
  IntInU32 c.Frequency ∧ IntInU32 c.MinDR ∧ IntInU32 c.MaxDR

instance : DecidablePred ChannelInRange :=
  fun c => inferInstanceAs (Decidable (IntInU32 c.Frequency ∧ IntInU32 c.MinDR ∧ IntInU32 c.MaxDR))

/-- The conditions under which `deviceSessionFromPB` undoes
`deviceSessionDataToPB` on the plain fields: the fields the codec does not
serialise (`RXWindow`, deprecated `EnabledChannels`) hold their zero values;
uint8/uint16-typed fields are within their Go type's range (always true of
real Go values); int-typed fields survive the uint32 narrowing; timestamps
are not before the Unix epoch. -/
def DataInRange (d : DeviceSessionData) : Prop :=
  d.RXWindow = 0 ∧
  d.EnabledChannels = [] ∧
  d.RXDelay < 256 ∧
  d.RX1DROffset < 256 ∧
  d.RX2DR < 256 ∧
  d.NbTrans < 256 ∧
  d.UplinkMaxEIRPIndex < 256 ∧
  d.RejoinCount0 < 65536 ∧
  IntInU32 d.RX2Frequency ∧
  IntInU32 d.TXPowerIndex ∧
  IntInU32 d.DR ∧
  IntInU32 d.MinSupportedTXPowerIndex ∧
  IntInU32 d.MaxSupportedTXPowerIndex ∧
  IntInU32 d.PingSlotNb ∧
  IntInU32 d.PingSlotDR ∧
  IntInU32 d.PingSlotFrequency ∧
  IntInU32 d.RejoinRequestMaxCountN ∧
  IntInU32 d.RejoinRequestMaxTimeN ∧
  0 ≤ d.LastDevStatusRequested ∧
  0 ≤ d.LastDownlinkTX ∧
  (∀ c ∈ d.EnabledUplinkChannels, IntInU32 c) ∧
  (∀ kc ∈ d.ExtraUplinkChannels, IntInU32 kc.1 ∧ ChannelInRange kc.2) ∧
  (∀ c ∈ d.ChannelFrequencies, IntInU32 c) ∧
  (∀ uh ∈ d.UplinkHistory, IntInU32 uh.TXPowerIndex ∧ IntInU32 uh.GatewayCount)

instance : DecidablePred DataInRange := fun d => by
  unfold DataInRange
  infer_instance

/-- `DataInRange` for a session and, recursively, for its embedded pending
rejoin session. -/
def SessionInRange : DeviceSession → Prop
  | .mk d none => DataInRange d
  | .mk d (some p) => DataInRange d ∧ SessionInRange p

/-- `SessionInRange` is decidable. -/
def SessionInRange.dec : (s : DeviceSession) → Decidable (SessionInRange s)
  | .mk d none => by unfold SessionInRange; infer_instance
  | .mk d (some p) => by
    have := SessionInRange.dec p
    unfold SessionInRange
    infer_instance

instance : DecidablePred SessionInRange := SessionInRange.dec

/-! ## Session operations (src/unnamed/part_002) -/

/-- The trimming step of `AppendUplinkHistory` (lines 196-198): when more
than `UplinkHistorySize` records are present, only the most recent ones are
preserved (`s.UplinkHistory[count-UplinkHistorySize : count]`). -/
def trimUplinkHistory (l : List UplinkHistory) : List UplinkHistory :=
  if UplinkHistorySize < l.length then l.drop (l.length - UplinkHistorySize) else l

/-- `AppendUplinkHistory` (lines 186-199): a record whose `FCnt` equals the
last stored record's `FCnt` is ignored (the source comments that the
re-transmission might be a replay attack); otherwise the record is appended
and the list trimmed to the 20 most recent records. -/
def AppendUplinkHistory (s : DeviceSession) (up : UplinkHistory) : DeviceSession :=
  match s with
  | .mk d p =>
    match d.UplinkHistory.getLast? with
    | some lastRec =>
      if lastRec.FCnt = up.FCnt then .mk d p
      else .mk { d with UplinkHistory := trimUplinkHistory (d.UplinkHistory ++ [up]) } p
    | none => .mk { d with UplinkHistory := trimUplinkHistory (d.UplinkHistory ++ [up]) } p

/-- The accumulation loop of `GetPacketLossPercentage` (lines 214-221) after
the first record seeded `previousFCnt`: `lostPackets += uh.FCnt -
previousFCnt - 1` in Go uint32 arithmetic (wrapping). -/
def lostPacketsLoop (prev acc : Nat) : List UplinkHistory → Nat
  | [] => acc
  | uh :: rest =>
    lostPacketsLoop (uh.FCnt % 4294967296)
      ((acc + ((uh.FCnt % 4294967296 + 2 * 4294967296 - prev % 4294967296 - 1) % 4294967296))
        % 4294967296)
      rest

/-- `GetPacketLossPercentage` (lines 206-224): returns 0 until the history
is full, otherwise the wrapped lost-packet count over the history length,
times 100. Go float64 division is modelled as exact rational division; the
empty-history arm is unreachable past the length guard. -/
def GetPacketLossPercentage (s : DeviceSession) : Rat :=
  if s.data.UplinkHistory.length < UplinkHistorySize then 0
  else
    match s.data.UplinkHistory with
    | [] => 0
    | first :: rest =>
      ((lostPacketsLoop (first.FCnt % 4294967296) 0 rest : Rat)
        / (s.data.UplinkHistory.length : Rat)) * 100

/-- `ValidateAndGetFullFCntUp` (lines 286-293): the gap is the Go uint16
wrapping difference `uint32(uint16(fCntUp) - uint16(s.FCntUp%65536))`; the
value is accepted only when the gap is below `MaxFCntGap`, which the source
reads from the band configuration (`band.Band().GetDefaults().MaxFCntGap`)
and which is passed here as the `maxFCntGap` parameter. -/
def ValidateAndGetFullFCntUp (maxFCntGap : Nat) (s : DeviceSession) (fCntUp : Nat) :
    Nat × Bool :=
  let gap := ((fCntUp % 65536) + 65536 - ((s.data.FCntUp % 65536) % 65536)) % 65536
  if gap < maxFCntGap then ((s.data.FCntUp + gap) % 4294967296, true)
  else (0, false)

/-- The mutation the `SkipFCntValidation` branch of
`GetDeviceSessionForPHYPayload` applies (lines 454-456): trust the frame's
FCnt, reset `FCntUp` to it and clear the uplink history. No other field (in
particular neither downlink frame counter) changes. -/
def resetFrameCounters (s : DeviceSession) (frameFCnt : Nat) : DeviceSession :=
  match s with
  | .mk d p => .mk { d with FCntUp := frameFCnt, UplinkHistory := [] } p

/-- `GetDeviceSessionForPHYPayload` (lines 429-495). The candidate list
(`GetDeviceSessionsForDevAddr` over the frame's DevAddr) is the input list;
`frameFCnt` is the frame's 16-bit-truncated FCnt; the LoRaWAN library call
`phy.ValidateUplinkDataMIC` is the oracle `micOK`, applied to the session
whose keys are used and to the FCnt value stored in the frame at validation
time (the full FCnt in the normal path, the original frame FCnt in the
skip-validation path). The second component collects the sessions persisted
by `SaveDeviceSession` during the call. -/
def GetDeviceSessionForPHYPayload (micOK : DeviceSession → Nat → Bool)
    (maxFCntGap frameFCnt : Nat) :
    List DeviceSession → Except StorageError DeviceSession × List DeviceSession
  | [] => (.error .doesNotExistOrFCntOrMICInvalid, [])
  | s :: rest =>
    let v := ValidateAndGetFullFCntUp maxFCntGap s frameFCnt
    if v.2 then
      if micOK s v.1 then (.ok s, [])
      else GetDeviceSessionForPHYPayload micOK maxFCntGap frameFCnt rest
    else if s.data.SkipFCntValidation then
      let s' := resetFrameCounters s frameFCnt
      if micOK s' frameFCnt then (.ok s', [s'])
      else GetDeviceSessionForPHYPayload micOK maxFCntGap frameFCnt rest
    else GetDeviceSessionForPHYPayload micOK maxFCntGap frameFCnt rest

/-- A candidate session the disambiguation loop rejects and skips past:
either its frame-counter gap is valid but the MIC check fails, or the gap is
invalid and the skip-validation retry is unavailable or fails its MIC
check. -/
def candidateRejected (micOK : DeviceSession → Nat → Bool)
    (maxFCntGap frameFCnt : Nat) (s : DeviceSession) : Bool :=
  let v := ValidateAndGetFullFCntUp maxFCntGap s frameFCnt
  if v.2 then !(micOK s v.1)
  else if s.data.SkipFCntValidation then
    !(micOK (resetFrameCounters s frameFCnt) frameFCnt)
  else true

/-! ## Helper lemmas -/

/-- Copying the value of a fixed-size array back into a fixed-size array of
the same size restores it. -/
theorem copyFixed_val_roundtrip (n : Nat) (b : GoBytes n) : copyFixed n b.val = b := by
  apply Subtype.ext
  have h := b.property
  simp [copyFixed, h, List.take_of_length_le (Nat.le_of_eq h)]

/-- The uint32 narrowing of an in-range Go int is undone by widening back. -/
theorem u32ofInt_roundtrip (x : Int) (h : IntInU32 x) : ((u32ofInt x : Nat) : Int) = x := by
  unfold u32ofInt
  rw [Int.toNat_of_nonneg (Int.emod_nonneg x (by norm_num))]
  exact Int.emod_eq_of_lt h.1 h.2

/-- Mapping an inverse over a mapped list restores the list. -/
theorem map_map_id {α β : Type} (f : α → β) (g : β → α) (l : List α)
    (h : ∀ x ∈ l, g (f x) = x) : (l.map f).map g = l := by
  induction l with
  | nil => rfl
  | cons a t ih =>
    simp only [List.map_cons, List.cons.injEq]
    exact ⟨h a (List.mem_cons_self a t), ih (fun x hx => h x (List.mem_cons_of_mem a hx))⟩

/-- Round trip of the channel lists (`EnabledUplinkChannels`,
`ChannelFrequencies`). -/
theorem map_u32_roundtrip (l : List Int) (h : ∀ x ∈ l, IntInU32 x) :
    ((l.map u32ofInt).map fun (c : Nat) => (c : Int)) = l :=
  map_map_id _ _ _ (fun x hx => u32ofInt_roundtrip x (h x hx))

/-- Round trip of the extra-uplink-channel association list. -/
theorem map_extra_roundtrip (l : List (Int × Channel))
    (h : ∀ kc ∈ l, IntInU32 kc.1 ∧ ChannelInRange kc.2) :
    (((l.map fun kc => (u32ofInt kc.1,
        (⟨u32ofInt kc.2.Frequency, u32ofInt kc.2.MinDR, u32ofInt kc.2.MaxDR⟩ :
          DeviceSessionPBChannel))).map
      fun (kc : Nat × DeviceSessionPBChannel) => ((kc.1 : Int),
        (⟨(kc.2.Frequency : Int), (kc.2.MinDr : Int), (kc.2.MaxDr : Int)⟩ : Channel))) = l) := by
  apply map_map_id
  intro kc hkc
  obtain ⟨h1, hf, hmin, hmax⟩ := h kc hkc
  simp only [u32ofInt_roundtrip _ h1, u32ofInt_roundtrip _ hf,
    u32ofInt_roundtrip _ hmin, u32ofInt_roundtrip _ hmax]

/-- Round trip of the uplink-history list. -/
theorem map_history_roundtrip (l : List UplinkHistory)
    (h : ∀ uh ∈ l, IntInU32 uh.TXPowerIndex ∧ IntInU32 uh.GatewayCount) :
    (((l.map fun uh => (⟨uh.FCnt, uh.MaxSNR, u32ofInt uh.TXPowerIndex,
        u32ofInt uh.GatewayCount⟩ : DeviceSessionPBUplinkADRHistory)).map
      fun (uh : DeviceSessionPBUplinkADRHistory) => (⟨uh.FCnt, uh.MaxSnr, (uh.TxPowerIndex : Int),
        (uh.GatewayCount : Int)⟩ : UplinkHistory)) = l) := by
  apply map_map_id
  intro uh huh
  obtain ⟨htx, hgw⟩ := h uh huh
  simp only [u32ofInt_roundtrip _ htx, u32ofInt_roundtrip _ hgw]

/-- Round trip of the optional application-session key envelope. -/
theorem appSKey_roundtrip (o : Option KeyEnvelope) :
    ((o.map fun k => (⟨k.KEKLabel, k.AESKey⟩ : KeyEnvelope)).map
      fun k => (⟨k.KEKLabel, k.AESKey⟩ : KeyEnvelope)) = o := by
  cases o <;> rfl

/-- Round trip of a timestamp that is not before the Unix epoch. -/
theorem pos_time_roundtrip (t : Int) (h : 0 ≤ t) : (if 0 < t then t else 0) = t := by
  split <;> omega

/-- On the plain session fields, decoding undoes encoding whenever the
fields are in range. -/
theorem deviceSessionDataFromPB_toPB (d : DeviceSessionData) (h : DataInRange d) :
    deviceSessionDataFromPB (deviceSessionDataToPB d) = d := by
  obtain ⟨hRXW, hEC, hRXD, hRX1, hRX2DR, hNbT, hEIRP, hRC0, hRx2F, hTXP, hDR, hMinT, hMaxT,
    hPSNb, hPSDR, hPSF, hRJC, hRJT, hTS1, hTS2, hEUC, hXUC, hCF, hUH⟩ := h
  cases d
  simp only [deviceSessionDataToPB, deviceSessionDataFromPB, DeviceSessionData.mk.injEq]
  repeat' apply And.intro
  all_goals first
    | trivial
    | rfl
    | exact copyFixed_val_roundtrip _ _
    | exact appSKey_roundtrip _
    | exact u32ofInt_roundtrip _ (by assumption)
    | exact Nat.mod_eq_of_lt (by assumption)
    | exact map_u32_roundtrip _ (by assumption)
    | exact map_extra_roundtrip _ (by assumption)
    | exact map_history_roundtrip _ (by assumption)
    | (symm; assumption)
    | exact pos_time_roundtrip _ (by assumption)

/-- Decoding undoes encoding on a full session, recursing through the
embedded pending rejoin session. -/
theorem deviceSessionFromPB_toPB : (s : DeviceSession) → SessionInRange s →
    deviceSessionFromPB (deviceSessionToPB s) = s
  | .mk d none, h => by
    simp only [deviceSessionToPB, deviceSessionFromPB]
    rw [deviceSessionDataFromPB_toPB d h]
  | .mk d (some p), h => by
    have hp := deviceSessionFromPB_toPB p h.2
    simp only [deviceSessionToPB, deviceSessionFromPB, hp]
    rw [deviceSessionDataFromPB_toPB d h.1]

/-! ## Concrete sessions used by witnesses and counterexamples -/

/-- A concrete in-range session payload exercising every codec field. -/
def sampleData : DeviceSessionData where
  MACVersion := "1.0.2"
  DeviceProfileID := 11
  ServiceProfileID := 12
  RoutingProfileID := 13
  DevAddr := copyFixed 4 [1, 2, 3, 4]
  DevEUI := copyFixed 8 [1, 2, 3, 4, 5, 6, 7, 8]
  JoinEUI := copyFixed 8 [8, 7, 6, 5, 4, 3, 2, 1]
  FNwkSIntKey := copyFixed 16 [1]
  SNwkSIntKey := copyFixed 16 [2]
  NwkSEncKey := copyFixed 16 [3]
  AppSKeyEvelope := some ⟨"kek-label", [9, 9, 9]⟩
  FCntUp := 65535
  NFCntDown := 5
  AFCntDown := 3
  ConfFCnt := 1
  SkipFCntValidation := false
  RXWindow := 0
  RXDelay := 1
  RX1DROffset := 2
  RX2DR := 3
  RX2Frequency := 869525000
  TXPowerIndex := 2
  DR := 5
  ADR := true
  MinSupportedTXPowerIndex := 0
  MaxSupportedTXPowerIndex := 7
  NbTrans := 1
  EnabledChannels := []
  EnabledUplinkChannels := [0, 1, 2]
  ExtraUplinkChannels := [(3, ⟨867100000, 0, 5⟩)]
  ChannelFrequencies := [868100000, 868300000, 868500000]
  UplinkHistory := [⟨10, 7 / 2, 0, 2⟩]
  LastDevStatusRequested := 1500000000000000000
  LastDownlinkTX := 0
  BeaconLocked := false
  PingSlotNb := 1
  PingSlotDR := 3
  PingSlotFrequency := 868100000
  RejoinRequestEnabled := false
  RejoinRequestMaxCountN := 1
  RejoinRequestMaxTimeN := 2
  RejoinCount0 := 4
  ReferenceAltitude := 11 / 2
  UplinkDwellTime400ms := false
  DownlinkDwellTime400ms := true
  UplinkMaxEIRPIndex := 5

/-- A concrete session with an embedded pending rejoin session. -/
def sampleSession : DeviceSession :=
  .mk sampleData (some (.mk { sampleData with DevAddr := copyFixed 4 [4, 3, 2, 1] } none))

/-- A session whose `TXPowerIndex` is the Go int value -1; `uint32(-1)` is
4294967295, which decodes back to the Go int 4294967295. -/
def negTxSession : DeviceSession :=
  .mk { sampleData with TXPowerIndex := -1 } none

/-! ## Claim C2 -/

/-- Claim C2, counterexample: decoding the encoding is not the identity on
all session values. At the concrete session whose `TXPowerIndex` is -1 (a
valid Go int field value), the codec's uint32 narrowing turns the field into
4294967295, so the round trip changes the session. -/
theorem deviceSession_roundtrip_counterexample :
    deviceSessionFromPB (deviceSessionToPB negTxSession) ≠ negTxSession ∧
    (deviceSessionFromPB (deviceSessionToPB negTxSession)).data.TXPowerIndex = 4294967295 ∧
    negTxSession.data.TXPowerIndex = -1 := by
  refine ⟨by decide, by decide, by decide⟩

/-- Claim C2, as amended: decoding the encoding is the identity on every
session (including the embedded pending rejoin session, recursively) whose
non-serialised fields hold their zero values, whose int-typed fields survive
the uint32 narrowing, and whose timestamps are not before the Unix epoch
(`SessionInRange`). -/
theorem deviceSession_roundtrip (s : DeviceSession) (h : SessionInRange s) :
    deviceSessionFromPB (deviceSessionToPB s) = s :=
  deviceSessionFromPB_toPB s h

/-- Claim C2, witness: the amended round trip evaluated at a concrete
session carrying a pending rejoin session, uplink history, timestamps and
all numeric fields. -/
theorem deviceSession_roundtrip_witness :
    SessionInRange sampleSession ∧
    deviceSessionFromPB (deviceSessionToPB sampleSession) = sampleSession :=
  ⟨by decide, deviceSession_roundtrip sampleSession (by decide)⟩

/-! ## Claims C3 and C4: AppendUplinkHistory -/

/-- The trimmed history has at most 20 records: its length is the minimum of
the input length and `UplinkHistorySize`. -/
theorem trimUplinkHistory_length (l : List UplinkHistory) :
    (trimUplinkHistory l).length = min l.length UplinkHistorySize := by
  unfold trimUplinkHistory
  split <;> simp [List.length_drop] <;> omega

/-- Trimming is exactly dropping everything but the last
`UplinkHistorySize` records. -/
theorem trimUplinkHistory_eq_drop (l : List UplinkHistory) :
    trimUplinkHistory l = l.drop (l.length - UplinkHistorySize) := by
  unfold trimUplinkHistory
  split
  · rfl
  · rw [Nat.sub_eq_zero_of_le (by omega), List.drop_zero]

/-- One `AppendUplinkHistory` call preserves the 20-record bound. -/
theorem appendUplinkHistory_step_bound (s : DeviceSession) (up : UplinkHistory)
    (h : s.data.UplinkHistory.length ≤ UplinkHistorySize) :
    (AppendUplinkHistory s up).data.UplinkHistory.length ≤ UplinkHistorySize := by
  cases s with
  | mk d p =>
    simp only [DeviceSession.data] at h ⊢
    unfold AppendUplinkHistory
    cases hl : d.UplinkHistory.getLast? with
    | none => simp [hl, DeviceSession.data, trimUplinkHistory_length]
    | some lastRec =>
      by_cases hfc : lastRec.FCnt = up.FCnt
      · simpa [hl, hfc, DeviceSession.data] using h
      · simp [hl, hfc, DeviceSession.data, trimUplinkHistory_length]

/-- A re-transmission (equal `FCnt`) leaves the whole session unchanged. -/
theorem appendUplinkHistory_retransmission_ignored (s : DeviceSession)
    (up lastRec : UplinkHistory) (hlast : s.data.UplinkHistory.getLast? = some lastRec)
    (hfc : lastRec.FCnt = up.FCnt) : AppendUplinkHistory s up = s := by
  cases s with
  | mk d p =>
    simp only [DeviceSession.data] at hlast
    unfold AppendUplinkHistory
    simp [hlast, hfc]

/-- A concrete session whose last (and only) uplink-history record has
frame counter 10 and MaxSNR 1. -/
def retransmitSession : DeviceSession :=
  .mk { sampleData with UplinkHistory := [⟨10, 1, 0, 1⟩] } none

/-- Claim C3, counterexample: appending a record with the same `FCnt` as the
stored head but a strictly higher `MaxSNR` (5 versus 1) does not keep the
higher-SNR record — the call is a no-op and the lower-SNR record stays. -/
theorem appendUplinkHistory_higher_snr_loses :
    (5 : Rat) > (1 : Rat) ∧
    AppendUplinkHistory retransmitSession ⟨10, 5, 0, 1⟩ = retransmitSession ∧
    (AppendUplinkHistory retransmitSession ⟨10, 5, 0, 1⟩).data.UplinkHistory =
      [⟨10, 1, 0, 1⟩] ∧
    (AppendUplinkHistory retransmitSession ⟨10, 5, 0, 1⟩).data.UplinkHistory ≠
      [⟨10, 5, 0, 1⟩] := by
  refine ⟨by decide, ?_, by decide, by decide⟩
  exact appendUplinkHistory_retransmission_ignored retransmitSession ⟨10, 5, 0, 1⟩ ⟨10, 1, 0, 1⟩
    (by decide) (by decide)

/-- Claim C3, as amended: on a re-transmission (incoming record whose `FCnt`
equals the last stored record's `FCnt`) `AppendUplinkHistory` ignores the
incoming record entirely; the stored record is kept no matter which of the
two has the higher `MaxSNR`. -/
theorem appendUplinkHistory_dedup_keeps_stored (s : DeviceSession)
    (up lastRec : UplinkHistory) (hlast : s.data.UplinkHistory.getLast? = some lastRec)
    (hfc : lastRec.FCnt = up.FCnt) :
    AppendUplinkHistory s up = s ∧
    (AppendUplinkHistory s up).data.UplinkHistory = s.data.UplinkHistory :=
  ⟨appendUplinkHistory_retransmission_ignored s up lastRec hlast hfc,
   by rw [appendUplinkHistory_retransmission_ignored s up lastRec hlast hfc]⟩

/-- Claim C3, witness: the amended statement evaluated at the concrete
session (the stored record survives an equal-FCnt append). -/
theorem appendUplinkHistory_dedup_keeps_stored_witness :
    AppendUplinkHistory retransmitSession ⟨10, 2, 0, 1⟩ = retransmitSession ∧
    (AppendUplinkHistory retransmitSession ⟨10, 2, 0, 1⟩).data.UplinkHistory =
      retransmitSession.data.UplinkHistory :=
  appendUplinkHistory_dedup_keeps_stored retransmitSession (⟨10, 2, 0, 1⟩ : UplinkHistory)
    (⟨10, 1, 0, 1⟩ : UplinkHistory) (by decide) (by decide)

/-- Claim C4: (1) any sequence of `AppendUplinkHistory` calls keeps a
session satisfying the 20-record bound within the bound; (2) when a record
is actually appended, the new history is exactly the most recent 20 records
of the extended list; (3) appending a record whose `FCnt` equals the last
stored record's leaves the history unchanged. -/
theorem appendUplinkHistory_bound_and_dedup :
    (∀ (s : DeviceSession) (ups : List UplinkHistory),
      s.data.UplinkHistory.length ≤ UplinkHistorySize →
      (ups.foldl AppendUplinkHistory s).data.UplinkHistory.length ≤ UplinkHistorySize) ∧
    (∀ (s : DeviceSession) (up : UplinkHistory),
      (∀ lastRec, s.data.UplinkHistory.getLast? = some lastRec → lastRec.FCnt ≠ up.FCnt) →
      (AppendUplinkHistory s up).data.UplinkHistory =
        (s.data.UplinkHistory ++ [up]).drop
          ((s.data.UplinkHistory.length + 1) - UplinkHistorySize)) ∧
    (∀ (s : DeviceSession) (up lastRec : UplinkHistory),
      s.data.UplinkHistory.getLast? = some lastRec → lastRec.FCnt = up.FCnt →
      (AppendUplinkHistory s up).data.UplinkHistory = s.data.UplinkHistory) := by
  refine ⟨?_, ?_, ?_⟩
  · intro s ups
    induction ups generalizing s with
    | nil => intro h; exact h
    | cons u t ih => intro h; exact ih _ (appendUplinkHistory_step_bound s u h)
  · intro s up hno
    cases s with
    | mk d p =>
      simp only [DeviceSession.data] at hno ⊢
      unfold AppendUplinkHistory
      cases hl : d.UplinkHistory.getLast? with
      | none =>
        simp [hl, DeviceSession.data, trimUplinkHistory_eq_drop]
      | some lastRec =>
        simp only [hl]
        rw [if_neg (hno lastRec hl)]
        simp [DeviceSession.data, trimUplinkHistory_eq_drop]
  · intro s up lastRec hlast hfc
    rw [appendUplinkHistory_retransmission_ignored s up lastRec hlast hfc]

/-- A concrete session with an empty uplink history. -/
def emptyHistorySession : DeviceSession :=
  .mk { sampleData with UplinkHistory := [] } none

/-- Claim C4, witness: the bound, the recency formula and the no-op case
instantiated at concrete inputs. -/
theorem appendUplinkHistory_bound_and_dedup_witness :
    (([⟨11, 0, 0, 1⟩, ⟨12, 0, 0, 1⟩] : List UplinkHistory).foldl
        AppendUplinkHistory retransmitSession).data.UplinkHistory.length ≤
      UplinkHistorySize ∧
    (AppendUplinkHistory emptyHistorySession (⟨11, 0, 0, 1⟩ : UplinkHistory)).data.UplinkHistory =
      (emptyHistorySession.data.UplinkHistory ++ [(⟨11, 0, 0, 1⟩ : UplinkHistory)]).drop
        ((emptyHistorySession.data.UplinkHistory.length + 1) - UplinkHistorySize) ∧
    (AppendUplinkHistory retransmitSession (⟨10, 9, 0, 1⟩ : UplinkHistory)).data.UplinkHistory =
      retransmitSession.data.UplinkHistory :=
  ⟨appendUplinkHistory_bound_and_dedup.1 retransmitSession
      [(⟨11, 0, 0, 1⟩ : UplinkHistory), (⟨12, 0, 0, 1⟩ : UplinkHistory)] (by decide),
   appendUplinkHistory_bound_and_dedup.2.1 emptyHistorySession (⟨11, 0, 0, 1⟩ : UplinkHistory)
      (fun lastRec hl => Option.noConfusion hl),
   appendUplinkHistory_bound_and_dedup.2.2 retransmitSession (⟨10, 9, 0, 1⟩ : UplinkHistory)
      (⟨10, 1, 0, 1⟩ : UplinkHistory) (by decide) (by decide)⟩

/-! ## Claim C5: ValidateAndGetFullFCntUp -/

/-- Claim C5: the gap is the unsigned 16-bit wrapping difference between the
on-air frame counter and the session's counter (the unique value below 2^16
that advances the session counter to the frame counter modulo 2^16); the
value is accepted exactly when the gap is below `MaxFCntGap`, yielding the
32-bit sum of the stored counter and the gap, and rejected as `(0, false)`
otherwise. -/
theorem validateAndGetFullFCntUp_spec (maxFCntGap : Nat) (s : DeviceSession)
    (frameFCnt : Nat) (gap : Nat)
    (hgap : gap = ((frameFCnt % 65536) + 65536 - (s.data.FCntUp % 65536)) % 65536) :
    (gap < 65536 ∧ (s.data.FCntUp % 65536 + gap) % 65536 = frameFCnt % 65536) ∧
    (gap < maxFCntGap →
      ValidateAndGetFullFCntUp maxFCntGap s frameFCnt =
        ((s.data.FCntUp + gap) % 4294967296, true)) ∧
    (maxFCntGap ≤ gap →
      ValidateAndGetFullFCntUp maxFCntGap s frameFCnt = (0, false)) := by
  have hdm : ((frameFCnt % 65536) + 65536 - ((s.data.FCntUp % 65536) % 65536)) % 65536 = gap := by
    omega
  refine ⟨⟨by omega, by omega⟩, ?_, ?_⟩
  · intro hlt
    simp only [ValidateAndGetFullFCntUp, hdm]
    rw [if_pos hlt]
  · intro hge
    simp only [ValidateAndGetFullFCntUp, hdm]
    rw [if_neg (by omega)]

/-- Claim C5, witness: a wrap-around case. The session counter is 65535, the
on-air counter is 2, so the wrapping gap is 3 and the accepted full counter
is 65538. -/
theorem validateAndGetFullFCntUp_spec_witness :
    ValidateAndGetFullFCntUp 16384 (.mk sampleData none) 2 = (65538, true) := by
  have h := (validateAndGetFullFCntUp_spec 16384 (.mk sampleData none) 2 3 (by decide)).2.1
    (by decide)
  rw [h]
  decide

/-! ## Claim C7: GetPacketLossPercentage -/

/-- A full 20-record history with exactly one missing frame counter (1):
frame counters 0, 2, 3, ..., 20. -/
def lossSession : DeviceSession :=
  .mk { sampleData with UplinkHistory :=
    [⟨0, 0, 0, 0⟩, ⟨2, 0, 0, 0⟩, ⟨3, 0, 0, 0⟩, ⟨4, 0, 0, 0⟩, ⟨5, 0, 0, 0⟩,
     ⟨6, 0, 0, 0⟩, ⟨7, 0, 0, 0⟩, ⟨8, 0, 0, 0⟩, ⟨9, 0, 0, 0⟩, ⟨10, 0, 0, 0⟩,
     ⟨11, 0, 0, 0⟩, ⟨12, 0, 0, 0⟩, ⟨13, 0, 0, 0⟩, ⟨14, 0, 0, 0⟩, ⟨15, 0, 0, 0⟩,
     ⟨16, 0, 0, 0⟩, ⟨17, 0, 0, 0⟩, ⟨18, 0, 0, 0⟩, ⟨19, 0, 0, 0⟩, ⟨20, 0, 0, 0⟩] } none

/-- Claim C7: with fewer than 20 stored records the packet-loss percentage
is reported as 0; a full 20-record history yields the computed value (here a
history missing exactly one frame gives the non-zero value 5%). -/
theorem getPacketLossPercentage_spec :
    (∀ s : DeviceSession, s.data.UplinkHistory.length < UplinkHistorySize →
      GetPacketLossPercentage s = 0) ∧
    (lossSession.data.UplinkHistory.length = UplinkHistorySize ∧
      GetPacketLossPercentage lossSession = 5 ∧ (5 : Rat) ≠ 0) := by
  constructor
  · intro s h
    unfold GetPacketLossPercentage
    rw [if_pos h]
  · refine ⟨by decide, ?_, by norm_num⟩
    have hlost : lostPacketsLoop (0 % 4294967296) 0
        [⟨2, 0, 0, 0⟩, ⟨3, 0, 0, 0⟩, ⟨4, 0, 0, 0⟩, ⟨5, 0, 0, 0⟩,
         ⟨6, 0, 0, 0⟩, ⟨7, 0, 0, 0⟩, ⟨8, 0, 0, 0⟩, ⟨9, 0, 0, 0⟩, ⟨10, 0, 0, 0⟩,
         ⟨11, 0, 0, 0⟩, ⟨12, 0, 0, 0⟩, ⟨13, 0, 0, 0⟩, ⟨14, 0, 0, 0⟩, ⟨15, 0, 0, 0⟩,
         ⟨16, 0, 0, 0⟩, ⟨17, 0, 0, 0⟩, ⟨18, 0, 0, 0⟩, ⟨19, 0, 0, 0⟩, ⟨20, 0, 0, 0⟩] = 1 := by
      rfl
    simp only [GetPacketLossPercentage, lossSession, sampleData, DeviceSession.data,
      UplinkHistorySize]
    norm_num [hlost]

/-- Claim C7, witness: the early-return arm applied to a concrete session
with a single-record history. -/
theorem getPacketLossPercentage_spec_witness :
    GetPacketLossPercentage retransmitSession = 0 :=
  getPacketLossPercentage_spec.1 retransmitSession (by decide)

/-! ## Claim C6: the SkipFCntValidation reset path -/

/-- The disambiguation loop skips past a rejected candidate. -/
theorem getDeviceSessionForPHYPayload_skip_rejected (micOK : DeviceSession → Nat → Bool)
    (maxFCntGap frameFCnt : Nat) (t : DeviceSession) (l : List DeviceSession)
    (ht : candidateRejected micOK maxFCntGap frameFCnt t = true) :
    GetDeviceSessionForPHYPayload micOK maxFCntGap frameFCnt (t :: l) =
      GetDeviceSessionForPHYPayload micOK maxFCntGap frameFCnt l := by
  by_cases hv : (ValidateAndGetFullFCntUp maxFCntGap t frameFCnt).2 = true
  · simp only [candidateRejected, hv, if_true, Bool.not_eq_true'] at ht
    simp [GetDeviceSessionForPHYPayload, hv, ht]
  · have hv' : (ValidateAndGetFullFCntUp maxFCntGap t frameFCnt).2 = false :=
      Bool.not_eq_true _ ▸ Bool.of_not_eq_true hv
    by_cases hs : t.data.SkipFCntValidation = true
    · simp only [candidateRejected, hv', hs, Bool.false_eq_true, if_false, if_true,
        Bool.not_eq_true'] at ht
      simp [GetDeviceSessionForPHYPayload, hv', hs, ht]
    · have hs' : t.data.SkipFCntValidation = false :=
        Bool.not_eq_true _ ▸ Bool.of_not_eq_true hs
      simp [GetDeviceSessionForPHYPayload, hv', hs']

/-- The disambiguation loop skips past any prefix of rejected candidates. -/
theorem getDeviceSessionForPHYPayload_skip_front (micOK : DeviceSession → Nat → Bool)
    (maxFCntGap frameFCnt : Nat) (pre l : List DeviceSession)
    (hpre : ∀ t ∈ pre, candidateRejected micOK maxFCntGap frameFCnt t = true) :
    GetDeviceSessionForPHYPayload micOK maxFCntGap frameFCnt (pre ++ l) =
      GetDeviceSessionForPHYPayload micOK maxFCntGap frameFCnt l := by
  induction pre with
  | nil => rfl
  | cons t rest ih =>
    rw [List.cons_append,
      getDeviceSessionForPHYPayload_skip_rejected micOK maxFCntGap frameFCnt t (rest ++ l)
        (hpre t (List.mem_cons_self t rest)),
      ih (fun x hx => hpre x (List.mem_cons_of_mem t hx))]

/-- Claim C6: when the loop reaches a candidate whose gap check fails and
whose `SkipFCntValidation` flag is set, and the MIC validates against the
frame's counter value, the call returns the candidate with `FCntUp` reset to
the frame value and `UplinkHistory` cleared, persists exactly that mutated
session (the write side effect of this read call), and leaves both downlink
frame counters (and every other field) untouched. -/
theorem getDeviceSessionForPHYPayload_skip_reset (micOK : DeviceSession → Nat → Bool)
    (maxFCntGap frameFCnt : Nat) (pre : List DeviceSession) (s : DeviceSession)
    (rest : List DeviceSession)
    (hpre : ∀ t ∈ pre, candidateRejected micOK maxFCntGap frameFCnt t = true)
    (hgap : (ValidateAndGetFullFCntUp maxFCntGap s frameFCnt).2 = false)
    (hskip : s.data.SkipFCntValidation = true)
    (hmic : micOK (resetFrameCounters s frameFCnt) frameFCnt = true) :
    GetDeviceSessionForPHYPayload micOK maxFCntGap frameFCnt (pre ++ s :: rest) =
      (.ok (resetFrameCounters s frameFCnt), [resetFrameCounters s frameFCnt]) ∧
    (resetFrameCounters s frameFCnt).data.FCntUp = frameFCnt ∧
    (resetFrameCounters s frameFCnt).data.UplinkHistory = [] ∧
    (resetFrameCounters s frameFCnt).data.NFCntDown = s.data.NFCntDown ∧
    (resetFrameCounters s frameFCnt).data.AFCntDown = s.data.AFCntDown ∧
    (resetFrameCounters s frameFCnt).pending = s.pending := by
  refine ⟨?_, ?_, ?_, ?_, ?_, ?_⟩
  · rw [getDeviceSessionForPHYPayload_skip_front micOK maxFCntGap frameFCnt pre (s :: rest) hpre]
    simp [GetDeviceSessionForPHYPayload, hgap, hskip, hmic]
  all_goals cases s with
  | mk d p => simp [resetFrameCounters, DeviceSession.data, DeviceSession.pending]

/-- The MIC oracle used by the witness: accepts everything. -/
def acceptAllMIC : DeviceSession → Nat → Bool := fun _ _ => true

/-- A candidate ahead of the reset session in the witness: its gap check
fails (MaxFCntGap 0 rejects every gap) and it cannot use the skip path. -/
def strictSession : DeviceSession :=
  .mk sampleData none

/-- The witness session with `SkipFCntValidation` enabled. -/
def skipSession : DeviceSession :=
  .mk { sampleData with SkipFCntValidation := true } none

/-- Claim C6, witness: the reset path evaluated at a concrete candidate list
whose first candidate is rejected. -/
theorem getDeviceSessionForPHYPayload_skip_reset_witness :
    GetDeviceSessionForPHYPayload acceptAllMIC 0 7 [strictSession, skipSession] =
      (.ok (resetFrameCounters skipSession 7), [resetFrameCounters skipSession 7]) ∧
    (resetFrameCounters skipSession 7).data.FCntUp = 7 ∧
    (resetFrameCounters skipSession 7).data.UplinkHistory = [] ∧
    (resetFrameCounters skipSession 7).data.NFCntDown = skipSession.data.NFCntDown ∧
    (resetFrameCounters skipSession 7).data.AFCntDown = skipSession.data.AFCntDown ∧
    (resetFrameCounters skipSession 7).pending = skipSession.pending :=
  getDeviceSessionForPHYPayload_skip_reset acceptAllMIC 0 7 [strictSession] skipSession []
    (by decide) (by decide) (by decide) (by decide)

/-! ## Claim C1: at most one NACK, and it precedes every HandleError -/

/-- With no pending item in the list, the discard loop emits no
`HandleDownlinkACK` notification at all. -/
theorem scheduleLoop_no_ack (now devEUI maxPayloadSize fCnt : Nat) :
    ∀ l : List DeviceQueueItem, (∀ x ∈ l, x.isPending = false) →
      ∀ n ∈ (scheduleLoop now devEUI maxPayloadSize fCnt l).1, n.isAck = false := by
  intro l
  induction l with
  | nil =>
    intro _ n hn
    simp [scheduleLoop] at hn
  | cons h t ih =>
    intro hall n hn
    have hh : h.isPending = false := hall h (List.mem_cons_self h t)
    have ht : ∀ x ∈ t, x.isPending = false := fun x hx => hall x (List.mem_cons_of_mem h hx)
    simp only [scheduleLoop, hh, Bool.false_and, Bool.false_eq_true, if_false] at hn
    split at hn
    · rcases List.mem_cons.mp hn with rfl | hn'
      · rfl
      · exact ih ht n hn'
    · split at hn
      · rcases List.mem_cons.mp hn with rfl | hn'
        · rfl
        · exact ih ht n hn'
      · simp at hn

/-- When the head of the list is not a timed-out pending item, the discard
loop emits no `HandleDownlinkACK` (assuming no pending item in the tail). -/
theorem scheduleLoop_no_ack_cons (now devEUI maxPayloadSize fCnt : Nat)
    (h : DeviceQueueItem) (rest : List DeviceQueueItem)
    (hne : (h.isPending && timeoutAfterExpired now h.timeoutAfter) = false)
    (hrest : ∀ x ∈ rest, x.isPending = false) :
    ∀ n ∈ (scheduleLoop now devEUI maxPayloadSize fCnt (h :: rest)).1, n.isAck = false := by
  intro n hn
  simp only [scheduleLoop, hne, Bool.false_eq_true, if_false] at hn
  split at hn
  · simp at hn
  · split at hn
    · rcases List.mem_cons.mp hn with rfl | hn'
      · rfl
      · exact scheduleLoop_no_ack now devEUI maxPayloadSize fCnt rest hrest n hn'
    · split at hn
      · rcases List.mem_cons.mp hn with rfl | hn'
        · rfl
        · exact scheduleLoop_no_ack now devEUI maxPayloadSize fCnt rest hrest n hn'
      · simp at hn

/-- If every notification of a list is a non-ACK, the three C1 conclusions
hold of it. -/
theorem ackfree_conclusions (queue : List DeviceQueueItem) (now devEUI : Nat)
    (notifs : List ASNotification) (haf : ∀ n ∈ notifs, n.isAck = false) :
    notifs.countP (fun n => n.isAck) ≤ 1 ∧
    (∀ (i j : Nat) (hi : i < notifs.length) (hj : j < notifs.length),
      (notifs.get ⟨i, hi⟩).isAck = true → (notifs.get ⟨j, hj⟩).isErr = true → i < j) ∧
    (∀ n ∈ notifs, n.isAck = true →
      ∃ h t rest, sortByFCnt queue = h :: rest ∧ h.isPending = true ∧
        h.timeoutAfter = some t ∧ t ≤ now ∧
        n = ASNotification.handleDownlinkACK devEUI h.fCnt false) := by
  refine ⟨?_, ?_, ?_⟩
  · have hz : notifs.countP (fun n => n.isAck) = 0 :=
      List.countP_eq_zero.mpr (fun a ha => by simp [haf a ha])
    omega
  · intro i j hi hj hack _
    have := haf _ (List.get_mem notifs i hi)
    rw [hack] at this
    cases this
  · intro n hn hackn
    have := haf n hn
    rw [hackn] at this
    cases this

/-- Claim C1: under the queue invariant that only the head (in ascending
FCnt order) can be pending, one scheduling call emits at most one
`HandleDownlinkACK`; that NACK carries the timed-out pending head's `FCnt`
with `Acknowledged = false`, and it precedes every `HandleError` emitted by
the same call (any ACK sits strictly before any error in the notification
sequence). -/
theorem scheduler_at_most_one_nack (now devEUI maxPayloadSize fCnt : Nat)
    (queue : List DeviceQueueItem)
    (hpend : ∀ x ∈ (sortByFCnt queue).drop 1, x.isPending = false)
    (notifs : List ASNotification) (res : Except StorageError DeviceQueueItem)
    (heq : GetNextDeviceQueueItemForDevEUIMaxPayloadSizeAndFCnt now devEUI maxPayloadSize fCnt
      queue = (notifs, res)) :
    notifs.countP (fun n => n.isAck) ≤ 1 ∧
    (∀ (i j : Nat) (hi : i < notifs.length) (hj : j < notifs.length),
      (notifs.get ⟨i, hi⟩).isAck = true → (notifs.get ⟨j, hj⟩).isErr = true → i < j) ∧
    (∀ n ∈ notifs, n.isAck = true →
      ∃ h t rest, sortByFCnt queue = h :: rest ∧ h.isPending = true ∧
        h.timeoutAfter = some t ∧ t ≤ now ∧
        n = ASNotification.handleDownlinkACK devEUI h.fCnt false) := by
  unfold GetNextDeviceQueueItemForDevEUIMaxPayloadSizeAndFCnt at heq
  cases hsl : sortByFCnt queue with
  | nil =>
    rw [hsl] at heq
    simp only [scheduleLoop] at heq
    injection heq with h1 _
    subst h1
    refine ⟨by simp, ?_, ?_⟩
    · intro i j hi hj
      simp at hi
    · intro n hn
      simp at hn
  | cons h rest =>
    rw [hsl] at heq hpend
    have hrest : ∀ x ∈ rest, x.isPending = false := by simpa using hpend
    by_cases hexp : (h.isPending && timeoutAfterExpired now h.timeoutAfter) = true
    · obtain ⟨hP, hE⟩ : h.isPending = true ∧ timeoutAfterExpired now h.timeoutAfter = true := by
        simpa using hexp
      obtain ⟨t, hta, htle⟩ : ∃ t, h.timeoutAfter = some t ∧ t ≤ now := by
        cases hta : h.timeoutAfter with
        | none => rw [hta] at hE; simp [timeoutAfterExpired] at hE
        | some t =>
          rw [hta] at hE
          exact ⟨t, rfl, by simpa [timeoutAfterExpired] using hE⟩
      rw [show scheduleLoop now devEUI maxPayloadSize fCnt (h :: rest) =
          (.handleDownlinkACK devEUI h.fCnt false ::
            (scheduleLoop now devEUI maxPayloadSize fCnt rest).1,
           (scheduleLoop now devEUI maxPayloadSize fCnt rest).2) from by
        simp [scheduleLoop, hexp]] at heq
      injection heq with h1 _
      subst h1
      have hnoack := scheduleLoop_no_ack now devEUI maxPayloadSize fCnt rest hrest
      refine ⟨?_, ?_, ?_⟩
      · have hz : (scheduleLoop now devEUI maxPayloadSize fCnt rest).1.countP
            (fun n => n.isAck) = 0 :=
          List.countP_eq_zero.mpr (fun a ha => by simp [hnoack a ha])
        have ha : (ASNotification.handleDownlinkACK devEUI h.fCnt false).isAck = true := rfl
        simp [List.countP_cons, hz, ha]
      · intro i j hi hj hack herr
        cases j with
        | zero => simp [ASNotification.isErr] at herr
        | succ j' =>
          cases i with
          | zero => exact Nat.succ_pos j'
          | succ i' =>
            exfalso
            have hmem : (ASNotification.handleDownlinkACK devEUI h.fCnt false ::
                (scheduleLoop now devEUI maxPayloadSize fCnt rest).1).get ⟨i' + 1, hi⟩ ∈
                (scheduleLoop now devEUI maxPayloadSize fCnt rest).1 := by
              rw [List.get_cons_succ]
              exact List.get_mem _ _ _
            have hfalse := hnoack _ hmem
            rw [hack] at hfalse
            cases hfalse
      · intro n hn hackn
        rcases List.mem_cons.mp hn with rfl | hn'
        · exact ⟨h, t, rest, rfl, hP, hta, htle, rfl⟩
        · exfalso
          have := hnoack n hn'
          rw [hackn] at this
          cases this
    · have hne : (h.isPending && timeoutAfterExpired now h.timeoutAfter) = false :=
        Bool.not_eq_true _ ▸ Bool.of_not_eq_true hexp
      have haf : ∀ n ∈ notifs, n.isAck = false := by
        intro n hn
        have hmem : n ∈ (scheduleLoop now devEUI maxPayloadSize fCnt (h :: rest)).1 := by
          rw [heq]
          exact hn
        exact scheduleLoop_no_ack_cons now devEUI maxPayloadSize fCnt h rest hne hrest n hmem
      have hc := ackfree_conclusions queue now devEUI notifs haf
      refine ⟨hc.1, hc.2.1, ?_⟩
      intro n hn hackn
      exfalso
      have := haf n hn
      rw [hackn] at this
      cases this

/-- Claim C1, witness: the theorem applied to the src test fixture (row
"nACK + first item discarded (payload size)"): the emitted sequence is one
NACK followed by one size error, and it counts at most one ACK. -/
theorem scheduler_at_most_one_nack_witness :
    ([ASNotification.handleDownlinkACK 1 100 false,
      ASNotification.handleError 1 .deviceQueueItemSize
        "payload exceeds max payload size" 101].countP (fun n => n.isAck)) ≤ 1 :=
  (scheduler_at_most_one_nack 1000 1 6 100 tQueue (by decide)
    [ASNotification.handleDownlinkACK 1 100 false,
     ASNotification.handleError 1 .deviceQueueItemSize
       "payload exceeds max payload size" 101]
    (.ok tItem2) (by rfl)).1

/-! ## Claim C8: GetNextDeviceQueueItemForDevEUI -/

/-- Claim C8: for a non-empty queue the call concerns the first item in
ascending `FCnt` order (a member of the queue with minimal frame counter):
if that head item is pending with a `TimeoutAfter` in the future the call
fails with not-found, otherwise it returns the head item. -/
theorem getNextDeviceQueueItem_spec (now : Nat) (queue : List DeviceQueueItem)
    (hne : queue ≠ []) :
    ∃ h rest, sortByFCnt queue = h :: rest ∧ h ∈ queue ∧
      (∀ q ∈ queue, h.fCnt ≤ q.fCnt) ∧
      ((h.isPending = true ∧ (∃ t, h.timeoutAfter = some t ∧ now < t)) →
        GetNextDeviceQueueItemForDevEUI now queue = .error .doesNotExist) ∧
      (¬(h.isPending = true ∧ (∃ t, h.timeoutAfter = some t ∧ now < t)) →
        GetNextDeviceQueueItemForDevEUI now queue = .ok h) := by
  cases hsl : sortByFCnt queue with
  | nil =>
    exfalso
    have hlen := List.length_insertionSort fcntLE queue
    rw [show List.insertionSort fcntLE queue = sortByFCnt queue from rfl, hsl] at hlen
    exact hne (List.length_eq_zero.mp hlen.symm)
  | cons h rest =>
    have hsorted : List.Sorted fcntLE (h :: rest) := by
      rw [← hsl]
      exact List.sorted_insertionSort fcntLE queue
    have hmem : h ∈ queue := by
      have : h ∈ sortByFCnt queue := by rw [hsl]; exact List.mem_cons_self h rest
      exact (List.mem_insertionSort fcntLE).mp this
    refine ⟨h, rest, rfl, hmem, ?_, ?_, ?_⟩
    · intro q hq
      have hq' : q ∈ h :: rest := by
        rw [← hsl]
        exact (List.mem_insertionSort fcntLE).mpr hq
      rcases List.mem_cons.mp hq' with rfl | hq''
      · exact Nat.le_refl _
      · exact (List.sorted_cons.mp hsorted).1 q hq''
    · rintro ⟨hp, t, hta, htf⟩
      simp only [GetNextDeviceQueueItemForDevEUI, hsl]
      rw [if_pos (by simp [hp, hta, timeoutAfterInFuture, htf])]
    · intro hnot
      have hcond : ¬((h.isPending && timeoutAfterInFuture now h.timeoutAfter) = true) := by
        intro hcond
        apply hnot
        obtain ⟨hp, hf⟩ : h.isPending = true ∧ timeoutAfterInFuture now h.timeoutAfter = true := by
          simpa using hcond
        refine ⟨hp, ?_⟩
        cases hta : h.timeoutAfter with
        | none => rw [hta] at hf; simp [timeoutAfterInFuture] at hf
        | some t =>
          rw [hta] at hf
          exact ⟨t, rfl, by simpa [timeoutAfterInFuture] using hf⟩
      simp only [GetNextDeviceQueueItemForDevEUI, hsl]
      rw [if_neg hcond]

/-- Claim C8, witness: the theorem applied to a concrete two-item queue. -/
theorem getNextDeviceQueueItem_spec_witness :
    ∃ h rest, sortByFCnt [tItem2, tItem1] = h :: rest ∧ h ∈ [tItem2, tItem1] ∧
      (∀ q ∈ [tItem2, tItem1], h.fCnt ≤ q.fCnt) ∧
      ((h.isPending = true ∧ (∃ t, h.timeoutAfter = some t ∧ 1000 < t)) →
        GetNextDeviceQueueItemForDevEUI 1000 [tItem2, tItem1] = .error .doesNotExist) ∧
      (¬(h.isPending = true ∧ (∃ t, h.timeoutAfter = some t ∧ 1000 < t)) →
        GetNextDeviceQueueItemForDevEUI 1000 [tItem2, tItem1] = .ok h) :=
  getNextDeviceQueueItem_spec 1000 [tItem2, tItem1] (by simp)

/-! ## Claim C9: dispatcher row-skip disjointness -/

/-- Claim C9: with exactly two eligible devices, two dispatcher calls with
limit 1 in separate uncommitted transactions (the second sees the rows the
first reserved, as `FOR UPDATE SKIP LOCKED` guarantees) return disjoint
device sets whose union is both devices, and rolling both transactions back
releases every reserved row. -/
theorem getDevicesClassBC_disjoint (d1 d2 : Nat) (hne : d1 ≠ d2)
    (r1 st1 r2 st2 : List Nat)
    (hc1 : GetDevicesWithClassBOrClassCDeviceQueueItems [d1, d2] [] 1 = (r1, st1))
    (hc2 : GetDevicesWithClassBOrClassCDeviceQueueItems [d1, d2] st1 1 = (r2, st2)) :
    r1 = [d1] ∧ r2 = [d2] ∧ (∀ x ∈ r1, x ∉ r2) ∧
    (∀ x, (x ∈ r1 ∨ x ∈ r2) ↔ (x = d1 ∨ x = d2)) ∧
    releaseLocks (releaseLocks st2 r2) r1 = [] := by
  have h1 : GetDevicesWithClassBOrClassCDeviceQueueItems [d1, d2] [] 1 = ([d1], [d1]) := by
    simp [GetDevicesWithClassBOrClassCDeviceQueueItems, List.filter, List.contains]
  rw [h1] at hc1
  injection hc1 with hr1 hst1
  subst hr1; subst hst1
  have h2 : GetDevicesWithClassBOrClassCDeviceQueueItems [d1, d2] [d1] 1 = ([d2], [d1, d2]) := by
    simp [GetDevicesWithClassBOrClassCDeviceQueueItems, List.filter, List.contains, Ne.symm hne]
  rw [h2] at hc2
  injection hc2 with hr2 hst2
  subst hr2; subst hst2
  refine ⟨rfl, rfl, ?_, ?_, ?_⟩
  · intro x hx
    simp at hx
    subst hx
    simp [hne]
  · intro x
    simp
  · simp [releaseLocks, List.filter, List.contains, hne, Ne.symm hne]

/-- Claim C9, witness: the theorem applied to devices 1 and 2. -/
theorem getDevicesClassBC_disjoint_witness :
    ([1] : List Nat) = [1] ∧ ([2] : List Nat) = [2] ∧
    (∀ x ∈ ([1] : List Nat), x ∉ ([2] : List Nat)) ∧
    (∀ x : Nat, (x ∈ ([1] : List Nat) ∨ x ∈ ([2] : List Nat)) ↔ (x = 1 ∨ x = 2)) ∧
    releaseLocks (releaseLocks [1, 2] [2]) [1] = [] :=
  getDevicesClassBC_disjoint 1 2 (by decide) [1] [1] [2] [1, 2] (by rfl) (by rfl)

/-! ## Claim C10: pool CA-rejection returns nil client and nil error -/

/-- Claim C10: a `Get` for an uncached hostname with TLS material that is
not all-empty, whose X.509 keypair parses, and whose CA certificate PEM is
rejected by `AppendCertsFromPEM`, returns a nil client together with a nil
error (the source wraps the nil keypair error in that branch, and
`errors.Wrap(nil, msg)` is nil); the nil client is even cached under the
hostname. -/
theorem poolGet_ca_reject_nil_nil (env : CreateClientEnv)
    (clients : List (String × Option Nat)) (hostname : String)
    (caCert tlsCert tlsKey : List Nat)
    (hmiss : clients.lookup hostname = none)
    (htls : ¬(tlsCert = [] ∧ tlsKey = [] ∧ caCert = []))
    (hkp : env.x509KeyPairError = none)
    (hca : env.appendCertsOK = false) :
    poolGet env clients hostname caCert tlsCert tlsKey =
      ((none, none), clients ++ [(hostname, none)]) := by
  have hcc : createClient env caCert tlsCert tlsKey = (none, none) := by
    rw [createClient, if_neg htls, hkp]
    simp [hca, errorsWrap]
  simp [poolGet, hmiss, hcc]

/-- Claim C10, witness: the theorem applied to a concrete environment in
which the keypair parses, the CA PEM is rejected, and the hostname is not
cached. -/
theorem poolGet_ca_reject_nil_nil_witness :
    poolGet ⟨none, false, none, 42⟩ [] "as-server:8001" [1] [2] [3] =
      ((none, none), [] ++ [("as-server:8001", none)]) :=
  poolGet_ca_reject_nil_nil ⟨none, false, none, 42⟩ [] "as-server:8001" [1] [2] [3]
    (by rfl) (by simp) (by rfl) (by rfl)

end ChirpStack
